import Mathlib

/-!
Verification development for the a2a_mcp_agents repository.

The repository documents a Service Registry (services/service_registry) and an
Agent Card Registry with a capability Matching Engine (services/api_gateway
README, POST /agents/find), and ships an Electron shell (src/main.js,
src/preload.js).  The registry and matching logic exist in the repository only
as API documentation, so those components are modelled from the specification;
the Electron IPC layer is embedded directly from src/main.js and
src/preload.js.
-/

namespace A2A

/-- Metadata values.  Modelled from the spec: design note §9 requires metadata
values to be a closed variant type (string | number | boolean) so that
equality is well-defined. -/
inductive Value where
  | str (s : String)
  | num (n : Int)
  | bool (b : Bool)
deriving DecidableEq

/-- Agent status.  Modelled from the spec: §3 Agent, enumerated status with at
least a usable and a not-usable state; the README uses active. -/
inductive AgentStatus where
  | active
  | inactive
  | unavailable
deriving DecidableEq

/-- Agent record.  Modelled from the spec: §3 Agent and the Agent Card
Registry README data model (id, name, description, version, url,
health_check_url, status, metadata, capabilities). -/
structure Agent where
  agent_id : String
  name : String
  description : String
  version : String
  url : String
  health_check_url : String
  status : AgentStatus
  metadata : List (String × Value)
  capabilities : List String
deriving DecidableEq

/-- Capability record.  Modelled from the spec: §3 Capability
(capability_id, name, description, category, priority, metadata); name is the
natural key for matching, priority an integer weight. -/
structure Capability where
  capability_id : String
  name : String
  description : String
  category : String
  priority : Nat
  metadata : List (String × Value)
deriving DecidableEq

/-- Match request.  Modelled from the spec: §3 MatchRequest
(required_capabilities, preferred_capabilities, metadata_filters). -/
structure MatchRequest where
  required_capabilities : List String
  preferred_capabilities : List String
  metadata_filters : List (String × Value)
deriving DecidableEq

/-- First value bound to a key in an association list (metadata lookup). -/
def lookupMeta (md : List (String × Value)) (k : String) : Option Value :=
  match md with
  | [] => none
  | (k2, v) :: rest => if k2 = k then some v else lookupMeta rest k

/-- Eligibility filter.  Modelled from the spec: §4.4 step 1 — every required
capability is a member of the agent capability set, every metadata filter key
is present with an equal value, and the agent status is active. -/
def eligible (req : MatchRequest) (a : Agent) : Bool :=
  req.required_capabilities.all (fun c => a.capabilities.contains c)
    && req.metadata_filters.all (fun kv => lookupMeta a.metadata kv.1 = some kv.2)
    && a.status = AgentStatus.active

/-- Score.  Modelled from the spec: §4.4 step 2 — the number of preferred
capabilities the agent also has. -/
def matchScore (req : MatchRequest) (a : Agent) : Nat :=
  (req.preferred_capabilities.filter (fun c => a.capabilities.contains c)).length

/-- Priority of a capability name under the catalog; an unknown name
contributes 0.  Modelled from the spec: §4.4 step 2 tie-break (a). -/
def catalogPriority (cat : List Capability) (n : String) : Nat :=
  match cat with
  | [] => 0
  | c :: rest => if c.name = n then c.priority else catalogPriority rest n

/-- Cumulative priority over the matched preferred capabilities.  Modelled
from the spec: §4.4 step 2 tie-break (a). -/
def prioSum (cat : List Capability) (req : MatchRequest) (a : Agent) : Nat :=
  ((req.preferred_capabilities.filter (fun c => a.capabilities.contains c)).map
    (catalogPriority cat)).sum

/-- Lexicographic comparison of character lists by code point; the shorter
list precedes any extension of itself. -/
def lexLe : List Char → List Char → Bool
  | [], _ => true
  | _ :: _, [] => false
  | a :: as, b :: bs =>
    if a.toNat < b.toNat then true
    else if b.toNat < a.toNat then false
    else lexLe as bs

/-- Ranking order on scored agents.  Modelled from the spec: §4.4 step 3 —
descending by (score, priority_sum) with ascending lexicographic agent_id as
the final tie-break. -/
def rankRel (cat : List Capability) (req : MatchRequest) (x y : Agent × Nat) : Prop :=
  y.2 < x.2
    ∨ (x.2 = y.2
        ∧ (prioSum cat req y.1 < prioSum cat req x.1
            ∨ (prioSum cat req x.1 = prioSum cat req y.1
                ∧ lexLe x.1.agent_id.data y.1.agent_id.data = true)))

instance rankRelDecidable (cat : List Capability) (req : MatchRequest) :
    DecidableRel (rankRel cat req) := by
  intro x y
  unfold rankRel
  infer_instance

/-- Matching Engine.  Modelled from the spec: §4.4 — filter the snapshot by
eligibility, score each survivor, and return the full sequence sorted by the
ranking order; no truncation to a top-K prefix. -/
def findAgents (cat : List Capability) (req : MatchRequest) (snap : List Agent) :
    List (Agent × Nat) :=
  List.insertionSort (rankRel cat req)
    ((snap.filter (fun a => eligible req a)).map (fun a => (a, matchScore req a)))

/-- Error taxonomy.  Modelled from the spec: §7 — NotFound, ValidationError,
Conflict (reserved, unused), StoreUnavailable. -/
inductive RegError where
  | notFound
  | validationError
  | conflict
  | storeUnavailable
deriving DecidableEq

/-- Wire-level metadata filter value.  Modelled from the spec: §7 — a filter
value either deserializes into the closed variant type or is structurally
invalid (fails to deserialize). -/
inductive RawValue where
  | rawStr (s : String)
  | rawNum (n : Int)
  | rawBool (b : Bool)
  | rawMalformed
deriving DecidableEq

/-- Wire-level match request, before filter values are deserialized.
Modelled from the spec: §6 POST /agents/find body. -/
structure RawMatchRequest where
  required_capabilities : List String
  preferred_capabilities : List String
  metadata_filters : List (String × RawValue)
deriving DecidableEq

/-- Deserialize one wire value into the closed variant type. -/
def deserializeValue : RawValue → Option Value
  | RawValue.rawStr s => some (Value.str s)
  | RawValue.rawNum n => some (Value.num n)
  | RawValue.rawBool b => some (Value.bool b)
  | RawValue.rawMalformed => none

/-- Deserialize every filter value, failing if any single one fails. -/
def deserializeFilters : List (String × RawValue) → Option (List (String × Value))
  | [] => some []
  | (k, v) :: rest =>
    match deserializeValue v, deserializeFilters rest with
    | some w, some ws => some ((k, w) :: ws)
    | _, _ => none

/-- Parse a wire-level request.  Modelled from the spec: §7 — validation
rejects a request whose filter values fail to deserialize. -/
def parseRequest (r : RawMatchRequest) : Option MatchRequest :=
  match deserializeFilters r.metadata_filters with
  | some fs =>
    some { required_capabilities := r.required_capabilities,
           preferred_capabilities := r.preferred_capabilities,
           metadata_filters := fs }
  | none => none

/-- Matching Engine with its error channel.  Modelled from the spec: §7 — it
raises ValidationError only for structurally invalid requests and never
raises for an empty match result. -/
def findAgentsE (cat : List Capability) (r : RawMatchRequest) (snap : List Agent) :
    Except RegError (List (Agent × Nat)) :=
  match parseRequest r with
  | some req => Except.ok (findAgents cat req snap)
  | none => Except.error RegError.validationError

/-- Request with one extra required capability (monotonicity experiments). -/
def addRequired (c : String) (req : MatchRequest) : MatchRequest :=
  { req with required_capabilities := c :: req.required_capabilities }

/-- Request with every filter entry for a key removed. -/
def removeFilterKey (k : String) (req : MatchRequest) : MatchRequest :=
  { req with metadata_filters := req.metadata_filters.filter (fun kv => ¬ kv.1 = k) }

/-- Service record.  Modelled from the spec: §3 ServiceRecord (service_id,
name, url, health_check_url, metadata, registered_at, last_heartbeat_at,
ttl_seconds); last_heartbeat_at is initialised to the registration time, so
it is the last-touch time used by the visibility predicate. -/
structure ServiceRecord where
  service_id : Nat
  name : String
  url : String
  health_check_url : String
  metadata : List (String × Value)
  registered_at : Nat
  last_heartbeat_at : Nat
  updated_at : Nat
  ttl_seconds : Nat
deriving DecidableEq

/-- Registry state: the physical contents of the backing store (expired
records may still be physically present) plus the id generator. -/
structure RegistryState where
  next_id : Nat
  records : List ServiceRecord
deriving DecidableEq

/-- Visibility predicate.  Modelled from the spec: §9 design note — a record
is visible iff now - last_touch < ttl. -/
def isLive (now : Nat) (r : ServiceRecord) : Bool :=
  now - r.last_heartbeat_at < r.ttl_seconds

/-- Characters of the scheme markers accepted by the url check. -/
def httpMark : List Char := "http://".data

/-- Characters of the secure scheme marker accepted by the url check. -/
def httpsMark : List Char := "https://".data

/-- Whether the first list is an initial segment of the second. -/
def startsWith : List Char → List Char → Bool
  | [], _ => true
  | _ :: _, [] => false
  | a :: ps, b :: ss => a = b && startsWith ps ss

/-- Syntactic url check.  Modelled from the spec: §4.1 register requires a
syntactically valid url; modelled as carrying an http or https scheme. -/
def validUrl (u : String) : Bool :=
  startsWith httpMark u.data || startsWith httpsMark u.data

/-- The record created by a registration under id idv at time now: both
registered_at and last_heartbeat_at start at the registration time. -/
def newRecord (idv now : Nat) (nm url hcu : String) (md : List (String × Value))
    (ttl : Nat) : ServiceRecord :=
  { service_id := idv, name := nm, url := url, health_check_url := hcu,
    metadata := md, registered_at := now, last_heartbeat_at := now,
    updated_at := now, ttl_seconds := ttl }

/-- register.  Modelled from the spec: §4.1 — always succeeds on well-formed
input (non-empty name, syntactically valid url), generating a fresh unique id
even when the name collides with an existing record; the new record has
last_heartbeat_at and registered_at set to the current time. -/
def register (st : RegistryState) (now : Nat) (nm url hcu : String)
    (md : List (String × Value)) (ttl : Nat) :
    Except RegError (RegistryState × Nat) :=
  if nm = "" then Except.error RegError.validationError
  else if validUrl url then
    Except.ok
      ({ next_id := st.next_id + 1,
         records := newRecord st.next_id now nm url hcu md ttl :: st.records },
       st.next_id)
  else Except.error RegError.validationError

/-- heartbeat.  Modelled from the spec: §4.1 — refreshes last_heartbeat_at
(resetting the TTL window) when a live record with the id exists, and fails
with NotFound when the id was never registered, expired, or was removed; an
expired record is never resurrected. -/
def heartbeat (st : RegistryState) (now : Nat) (id : Nat) :
    Except RegError RegistryState :=
  if st.records.any (fun r => r.service_id = id && isLive now r) then
    Except.ok
      { st with
        records := st.records.map (fun r =>
          if r.service_id = id && isLive now r then
            { r with last_heartbeat_at := now }
          else r) }
  else Except.error RegError.notFound

/-- list.  Modelled from the spec: §4.1 — live entries only; expired entries
are invisible even if the store has not yet physically reaped them. -/
def listServices (st : RegistryState) (now : Nat) : List ServiceRecord :=
  st.records.filter (fun r => isLive now r)

/-- get.  Modelled from the spec: §4.1 — a live record by id, or NotFound. -/
def getService (st : RegistryState) (now : Nat) (id : Nat) :
    Except RegError ServiceRecord :=
  match st.records.find? (fun r => r.service_id = id && isLive now r) with
  | some r => Except.ok r
  | none => Except.error RegError.notFound

/-- discover.  Modelled from the spec: §4.1 — all live records whose name
matches; possibly empty, never an error. -/
def discover (st : RegistryState) (now : Nat) (nm : String) : List ServiceRecord :=
  st.records.filter (fun r => isLive now r && r.name = nm)

/-- deregister.  Modelled from the spec: §4.1 — immediate removal by id,
independent of TTL; NotFound when no record with the id is present. -/
def deregister (st : RegistryState) (id : Nat) : Except RegError RegistryState :=
  if st.records.any (fun r => r.service_id = id) then
    Except.ok { st with records := st.records.filter (fun r => ¬ r.service_id = id) }
  else Except.error RegError.notFound

/-- Partial-update payload: an absent field means the prior value is kept.
Modelled from the spec: §4.1 update. -/
structure UpdateFields where
  name : Option String
  url : Option String
  health_check_url : Option String
  metadata : Option (List (String × Value))
deriving DecidableEq

/-- Apply a partial update to one record: named fields are replaced,
unnamed fields keep their prior values, updated_at is refreshed, and
registered_at, last_heartbeat_at and ttl_seconds are untouched. -/
def applyUpdate (now : Nat) (f : UpdateFields) (r : ServiceRecord) : ServiceRecord :=
  { r with
    name := f.name.getD r.name,
    url := f.url.getD r.url,
    health_check_url := f.health_check_url.getD r.health_check_url,
    metadata := f.metadata.getD r.metadata,
    updated_at := now }

/-- update.  Modelled from the spec: §4.1 — partial update of a live record;
refreshes updated_at but does not extend the TTL window (only heartbeat
does); NotFound when no live record with the id exists. -/
def update (st : RegistryState) (now : Nat) (id : Nat) (f : UpdateFields) :
    Except RegError RegistryState :=
  if st.records.any (fun r => r.service_id = id && isLive now r) then
    Except.ok
      { st with
        records := st.records.map (fun r =>
          if r.service_id = id && isLive now r then applyUpdate now f r else r) }
  else Except.error RegError.notFound

end A2A

namespace Electron

/-- Channels with an ipcMain.handle handler in src/main.js (lines 94-146):
get-agents, create-task, get-task, order-parts, set-api-url, get-api-url. -/
def mainHandlerChannels : List String :=
  ["get-agents", "create-task", "get-task", "order-parts", "set-api-url", "get-api-url"]

/-- The renderer-facing surface exposed by src/preload.js on
window.electronAPI via contextBridge.exposeInMainWorld. -/
inductive ExposedApi where
  | getAgents
  | getAgent
  | createTask
  | getTask
  | orderParts
  | setApiUrl
  | getApiUrl
deriving DecidableEq

/-- The IPC channel each exposed function passes to ipcRenderer.invoke
(src/preload.js lines 4-19). -/
def invokedChannel : ExposedApi → String
  | ExposedApi.getAgents => "get-agents"
  | ExposedApi.getAgent => "get-agent"
  | ExposedApi.createTask => "create-task"
  | ExposedApi.getTask => "get-task"
  | ExposedApi.orderParts => "order-parts"
  | ExposedApi.setApiUrl => "set-api-url"
  | ExposedApi.getApiUrl => "get-api-url"

/-- Outcome of ipcRenderer.invoke: the promise either settles through a
registered handler or is rejected. -/
inductive InvokeOutcome where
  | handled
  | rejected
deriving DecidableEq

/-- Modelled from Electron ipc semantics: invoke on a channel with no
ipcMain.handle registration rejects the returned promise; otherwise the
registered handler produces the response. -/
def ipcInvoke (handlers : List String) (ch : String) : InvokeOutcome :=
  if handlers.contains ch then InvokeOutcome.handled else InvokeOutcome.rejected

/-- Main-process state relevant to the API-url behaviour of src/main.js: the
persisted electron-store value under the apiUrl key, and the API_URL constant
captured once at startup (line 10). -/
structure MainState where
  storedApiUrl : Option String
  apiUrlConst : String
deriving DecidableEq

/-- JavaScript a || b for an optional string: undefined and the empty string
are falsy. -/
def jsOr (v : Option String) (d : String) : String :=
  match v with
  | some s => if s = "" then d else s
  | none => d

/-- The fallback url in src/main.js line 10. -/
def defaultApiUrl : String := "http://localhost:8000"

/-- Process startup (src/main.js line 10): API_URL is computed once from the
persisted store value, with the localhost fallback. -/
def startMain (persisted : Option String) : MainState :=
  { storedApiUrl := persisted, apiUrlConst := jsOr persisted defaultApiUrl }

/-- The set-api-url handler (src/main.js lines 138-141): writes the store key
and nothing else. -/
def setApiUrl (st : MainState) (u : String) : MainState :=
  { st with storedApiUrl := some u }

/-- The get-api-url handler (src/main.js lines 144-146):
store.get(apiUrl) || API_URL. -/
def getApiUrl (st : MainState) : String :=
  jsOr st.storedApiUrl st.apiUrlConst

/-- The four request handlers of src/main.js lines 94-135. -/
inductive RequestHandler where
  | getAgents
  | createTask
  | getTask
  | orderParts
deriving DecidableEq

/-- Target url each request handler sends its axios request to: always built
from the startup-captured API_URL constant (src/main.js lines 96, 107, 118,
129); the string argument is the task id interpolated by get-task. -/
def requestUrl (st : MainState) : RequestHandler → String → String
  | RequestHandler.getAgents, _ => st.apiUrlConst ++ "/agents"
  | RequestHandler.createTask, _ => st.apiUrlConst ++ "/tasks"
  | RequestHandler.getTask, tid => st.apiUrlConst ++ "/tasks/" ++ tid
  | RequestHandler.orderParts, _ => st.apiUrlConst ++ "/parts/order"

end Electron

namespace Fixtures

open A2A

/-- Concrete agent mirroring the Agent Card Registry README example
(mechanic-agent with engine specialty). -/
def agentA : Agent :=
  { agent_id := "agent-a", name := "mechanic-agent", description := "mechanic",
    version := "1.0.0", url := "http://sub-agent:8000/mechanic",
    health_check_url := "http://sub-agent:8000/health", status := AgentStatus.active,
    metadata := [("specialty", Value.str "engine")],
    capabilities := ["diagnose_engine", "order_parts"] }

/-- Second concrete agent for tie-break experiments (spec §8 scenario 2). -/
def agentB : Agent :=
  { agent_id := "agent-b", name := "master-technician", description := "tech",
    version := "1.0.0", url := "http://sub-agent:8000/master",
    health_check_url := "http://sub-agent:8000/health", status := AgentStatus.active,
    metadata := [("specialty", Value.str "engine")],
    capabilities := ["diagnose_engine", "repair_transmission"] }

/-- Concrete request of spec §8 scenario 1. -/
def reqS1 : MatchRequest :=
  { required_capabilities := ["diagnose_engine"], preferred_capabilities := [],
    metadata_filters := [] }

/-- Concrete request of spec §8 scenario 2. -/
def reqS2 : MatchRequest :=
  { required_capabilities := ["diagnose_engine"],
    preferred_capabilities := ["repair_transmission", "order_parts"],
    metadata_filters := [] }

/-- Concrete request of spec §8 scenario 4: a required capability possessed
by no agent. -/
def rawReqNone : RawMatchRequest :=
  { required_capabilities := ["nonexistent_capability"],
    preferred_capabilities := [], metadata_filters := [] }

/-- The parsed form of the scenario 4 request. -/
def reqNone : MatchRequest :=
  { required_capabilities := ["nonexistent_capability"],
    preferred_capabilities := [], metadata_filters := [] }

/-- A concrete live service record: heartbeated at 50 with a 60 second TTL. -/
def recLive : ServiceRecord :=
  { service_id := 0, name := "svc", url := "http://svc:8001",
    health_check_url := "http://svc:8001/health", metadata := [],
    registered_at := 0, last_heartbeat_at := 50, updated_at := 0, ttl_seconds := 60 }

/-- A concrete expired service record: last touched at 0 with a 60 second
TTL, still physically present in the store. -/
def recExpired : ServiceRecord :=
  { service_id := 1, name := "svc", url := "http://svc:8002",
    health_check_url := "http://svc:8002/health", metadata := [],
    registered_at := 0, last_heartbeat_at := 0, updated_at := 0, ttl_seconds := 60 }

/-- A concrete registry state holding one live and one expired record,
observed at time 100. -/
def stW : RegistryState := { next_id := 2, records := [recLive, recExpired] }

/-- A partial update that renames the service and names no other field. -/
def fRename : UpdateFields :=
  { name := some "svc-renamed", url := none, health_check_url := none, metadata := none }

end Fixtures

/-! ## Helper lemmas -/

open A2A

theorem lexLe_trans (a : List Char) :
    ∀ b c, lexLe a b = true → lexLe b c = true → lexLe a c = true := by
  induction a with
  | nil => intro b c _ _; rfl
  | cons x xs ih =>
    intro b c hab hbc
    cases b with
    | nil => simp [lexLe] at hab
    | cons y ys =>
      cases c with
      | nil => simp [lexLe] at hbc
      | cons z zs =>
        simp only [lexLe] at hab hbc ⊢
        split_ifs at hab hbc ⊢ <;>
          first
            | rfl
            | omega
            | exact ih ys zs hab hbc

theorem lexLe_total (a : List Char) :
    ∀ b, lexLe a b = true ∨ lexLe b a = true := by
  induction a with
  | nil => intro b; left; rfl
  | cons x xs ih =>
    intro b
    cases b with
    | nil => right; rfl
    | cons y ys =>
      simp only [lexLe]
      rcases Nat.lt_trichotomy x.toNat y.toNat with h | h | h
      · left; simp [h]
      · have h2 : ¬ x.toNat < y.toNat := by omega
        have h3 : ¬ y.toNat < x.toNat := by omega
        simp only [h2, h3, if_false, if_true, if_neg, if_pos]
        simpa [h2, h3] using ih ys
      · right; simp [h]

theorem rankRel_trans (cat : List Capability) (req : MatchRequest) :
    ∀ x y z, rankRel cat req x y → rankRel cat req y z → rankRel cat req x z := by
  intro x y z hxy hyz
  rcases hxy with h1 | ⟨e1, h1⟩
  · rcases hyz with h2 | ⟨e2, h2⟩
    · left; omega
    · left; omega
  · rcases hyz with h2 | ⟨e2, h2⟩
    · left; omega
    · right
      refine ⟨e1.trans e2, ?_⟩
      rcases h1 with p1 | ⟨q1, s1⟩
      · rcases h2 with p2 | ⟨q2, s2⟩
        · left; omega
        · left; omega
      · rcases h2 with p2 | ⟨q2, s2⟩
        · left; omega
        · right
          exact ⟨q1.trans q2, lexLe_trans _ _ _ s1 s2⟩

theorem rankRel_total (cat : List Capability) (req : MatchRequest) :
    ∀ x y, rankRel cat req x y ∨ rankRel cat req y x := by
  intro x y
  rcases Nat.lt_trichotomy x.2 y.2 with h | h | h
  · right; left; exact h
  · rcases Nat.lt_trichotomy (prioSum cat req x.1) (prioSum cat req y.1) with p | p | p
    · right; right; exact ⟨h.symm, Or.inl p⟩
    · rcases lexLe_total x.1.agent_id.data y.1.agent_id.data with s | s
      · left; right; exact ⟨h, Or.inr ⟨p, s⟩⟩
      · right; right; exact ⟨h.symm, Or.inr ⟨p.symm, s⟩⟩
    · left; right; exact ⟨h, Or.inl p⟩
  · left; left; exact h

/-! ## Claim theorems -/

/-- C1: for every agent snapshot and MatchRequest, the Matching Engine output
is a permutation of the eligible agents each paired with the score
|preferred_capabilities ∩ agent.capabilities|, it is sorted by the descending
(score, priority_sum) order with ascending lexicographic agent_id as final
tie-break, a pair is in the output exactly when its agent is an eligible
member of the snapshot carrying its computed score (so a score-0 eligible
agent still appears and nothing is truncated), and scores are non-increasing
along the output (each score-0 agent comes after every positive-score
agent). -/
theorem matching_full_ranked_output (cat : List Capability) (req : MatchRequest)
    (snap : List Agent) :
    (findAgents cat req snap).Perm
        ((snap.filter (fun a => eligible req a)).map (fun a => (a, matchScore req a)))
      ∧ List.Sorted (rankRel cat req) (findAgents cat req snap)
      ∧ (∀ a s, (a, s) ∈ findAgents cat req snap ↔
          (a ∈ snap ∧ eligible req a = true ∧ s = matchScore req a))
      ∧ List.Pairwise (fun x y => y.2 ≤ x.2) (findAgents cat req snap) := by
  haveI : IsTotal (Agent × Nat) (rankRel cat req) := ⟨rankRel_total cat req⟩
  haveI : IsTrans (Agent × Nat) (rankRel cat req) := ⟨rankRel_trans cat req⟩
  have hperm := List.perm_insertionSort (rankRel cat req)
    ((snap.filter (fun a => eligible req a)).map (fun a => (a, matchScore req a)))
  have hsorted := List.sorted_insertionSort (rankRel cat req)
    ((snap.filter (fun a => eligible req a)).map (fun a => (a, matchScore req a)))
  refine ⟨hperm, hsorted, ?_, ?_⟩
  · intro a s
    rw [findAgents, hperm.mem_iff]
    constructor
    · intro hm
      rcases List.mem_map.mp hm with ⟨b, hb, he⟩
      rcases List.mem_filter.mp hb with ⟨hbs, hbe⟩
      cases he
      exact ⟨hbs, hbe, rfl⟩
    · intro ⟨hs, he, hsc⟩
      subst hsc
      exact List.mem_map.mpr ⟨a, List.mem_filter.mpr ⟨hs, he⟩, rfl⟩
  · refine hsorted.imp ?_
    intro x y hxy
    rcases hxy with h | ⟨h, _⟩
    · omega
    · omega

/-- C2: two invocations of the Matching Engine with identical inputs (same
catalog, same request, same snapshot) produce identical ordered output,
including the order of agents tied on score and priority sum; the engine is a
deterministic function of its inputs. -/
theorem matching_deterministic (cat1 cat2 : List Capability) (req1 req2 : MatchRequest)
    (snap1 snap2 : List Agent) (hc : cat1 = cat2) (hr : req1 = req2)
    (hs : snap1 = snap2) :
    findAgents cat1 req1 snap1 = findAgents cat2 req2 snap2 := by
  subst hc
  subst hr
  subst hs
  rfl

/-- C2 witness: two invocations on the concrete scenario-2 inputs agree. -/
theorem matching_deterministic_witness :
    findAgents [] Fixtures.reqS2 [Fixtures.agentB, Fixtures.agentA] =
      findAgents [] Fixtures.reqS2 [Fixtures.agentB, Fixtures.agentA] :=
  matching_deterministic [] [] Fixtures.reqS2 Fixtures.reqS2
    [Fixtures.agentB, Fixtures.agentA] [Fixtures.agentB, Fixtures.agentA] rfl rfl rfl

/-- C3: the eligibility filter is monotonic in the constraints — prepending a
capability name to required_capabilities never enlarges the set of snapshot
agents passing the filter, and removing a metadata_filters key never shrinks
it. -/
theorem eligibility_monotonic (req : MatchRequest) (c k : String)
    (snap : List Agent) (a : Agent) :
    (a ∈ snap.filter (fun x => eligible (addRequired c req) x) →
        a ∈ snap.filter (fun x => eligible req x))
      ∧ (a ∈ snap.filter (fun x => eligible req x) →
        a ∈ snap.filter (fun x => eligible (removeFilterKey k req) x)) := by
  constructor
  · intro h
    rcases List.mem_filter.mp h with ⟨hs, he⟩
    refine List.mem_filter.mpr ⟨hs, ?_⟩
    simp only [eligible, addRequired, List.all_cons, Bool.and_eq_true] at he ⊢
    exact ⟨⟨he.1.1.2, he.1.2⟩, he.2⟩
  · intro h
    rcases List.mem_filter.mp h with ⟨hs, he⟩
    refine List.mem_filter.mpr ⟨hs, ?_⟩
    simp only [eligible, removeFilterKey, Bool.and_eq_true, List.all_eq_true] at he ⊢
    refine ⟨⟨he.1.1, ?_⟩, he.2⟩
    intro kv hkv
    exact he.1.2 kv (List.mem_of_mem_filter hkv)

/-- C3 witness: agentA passes the filter with the scenario-1 required
capability added on top of the empty request, hence also with the empty
request; and passing the empty request implies passing it with the specialty
filter key removed. -/
theorem eligibility_monotonic_witness :
    Fixtures.agentA ∈
        [Fixtures.agentA].filter
          (fun x => eligible (addRequired "diagnose_engine" Fixtures.reqS1) x) ∧
      Fixtures.agentA ∈ [Fixtures.agentA].filter (fun x => eligible Fixtures.reqS1 x) ∧
      Fixtures.agentA ∈
        [Fixtures.agentA].filter
          (fun x => eligible (removeFilterKey "specialty" Fixtures.reqS1) x) := by
  refine ⟨by decide, ?_, ?_⟩
  · exact (eligibility_monotonic Fixtures.reqS1 "diagnose_engine" "specialty"
      [Fixtures.agentA] Fixtures.agentA).1 (by decide)
  · exact (eligibility_monotonic Fixtures.reqS1 "diagnose_engine" "specialty"
      [Fixtures.agentA] Fixtures.agentA).2 (by decide)

/-- C4: the Matching Engine with its error channel errors only with
ValidationError, and only on structurally invalid requests (a metadata filter
value that fails to deserialize); on any parsed request under which no
snapshot agent is eligible it returns the empty sequence as a normal ok
result. -/
theorem find_no_match_empty_not_error (cat : List Capability) (r : RawMatchRequest)
    (snap : List Agent) :
    (∀ e, findAgentsE cat r snap = Except.error e →
        e = RegError.validationError ∧ parseRequest r = none)
      ∧ (∀ req, parseRequest r = some req →
          (∀ a ∈ snap, eligible req a = false) →
            findAgentsE cat r snap = Except.ok []) := by
  constructor
  · intro e he
    unfold findAgentsE at he
    cases hp : parseRequest r with
    | some req => rw [hp] at he; exact absurd he (by simp)
    | none =>
      rw [hp] at he
      refine ⟨?_, rfl⟩
      cases he
      rfl
  · intro req hp hno
    unfold findAgentsE
    rw [hp]
    have hfil : snap.filter (fun a => eligible req a) = [] := by
      rw [List.filter_eq_nil_iff]
      intro a ha
      simp [hno a ha]
    simp [findAgents, hfil]

/-- C4 witness: the scenario-4 request (a required capability possessed by no
agent) against the non-empty pool [agentA] parses successfully and yields the
ok empty sequence, not an error. -/
theorem find_no_match_empty_not_error_witness :
    findAgentsE [] Fixtures.rawReqNone [Fixtures.agentA] = Except.ok [] :=
  (find_no_match_empty_not_error [] Fixtures.rawReqNone [Fixtures.agentA]).2
    Fixtures.reqNone (by decide) (by decide)

/-- C5: a record is in the list() result iff it is physically in the store
and the time since its last touch (heartbeat, or registration, which
initialises last_heartbeat_at) is under its TTL; discover(name) additionally
requires the name to match; and once ttl_seconds have elapsed with no
heartbeat the record is absent from discover even while still physically
stored. -/
theorem visibility_iff_ttl (st : RegistryState) (now : Nat) (nm : String)
    (r : ServiceRecord) :
    (r ∈ listServices st now ↔
        r ∈ st.records ∧ now - r.last_heartbeat_at < r.ttl_seconds)
      ∧ (r ∈ discover st now nm ↔
        r ∈ st.records ∧ now - r.last_heartbeat_at < r.ttl_seconds ∧ r.name = nm)
      ∧ (r.ttl_seconds ≤ now - r.last_heartbeat_at → r ∉ discover st now nm) := by
  refine ⟨?_, ?_, ?_⟩
  · simp [listServices, List.mem_filter, isLive]
  · simp only [discover, List.mem_filter, isLive, Bool.and_eq_true, decide_eq_true_eq]
  · intro hexp hmem
    rcases List.mem_filter.mp hmem with ⟨_, hcond⟩
    simp only [isLive, Bool.and_eq_true, decide_eq_true_eq] at hcond
    omega

/-- C5 witness: at time 100 the live record (touched at 50, TTL 60) is
discovered under its name, while the expired record (touched at 0, TTL 60)
is not, although both are physically in the store. -/
theorem visibility_iff_ttl_witness :
    Fixtures.recLive ∈ Fixtures.stW.records ∧
      Fixtures.recExpired ∈ Fixtures.stW.records ∧
      Fixtures.recLive ∈ discover Fixtures.stW 100 "svc" ∧
      Fixtures.recExpired ∉ discover Fixtures.stW 100 "svc" := by
  refine ⟨by decide, by decide, by decide, ?_⟩
  exact (visibility_iff_ttl Fixtures.stW 100 "svc" Fixtures.recExpired).2.2 (by decide)

/-- C6: heartbeat(id) succeeds exactly when a live record with that id
exists; on success every live record with the id reappears with
last_heartbeat_at set to now (resetting the TTL window) and every expired
record is left untouched (no resurrection); when the id was never registered,
has expired, or was deregistered it returns NotFound. -/
theorem heartbeat_iff_live (st : RegistryState) (now : Nat) (id : Nat) :
    ((∃ st2, heartbeat st now id = Except.ok st2) ↔
        ∃ r ∈ st.records, r.service_id = id ∧ isLive now r = true)
      ∧ ((¬ ∃ r ∈ st.records, r.service_id = id ∧ isLive now r = true) →
          heartbeat st now id = Except.error RegError.notFound)
      ∧ (∀ st2, heartbeat st now id = Except.ok st2 →
          (∀ r ∈ st.records, r.service_id = id → isLive now r = true →
              ({ r with last_heartbeat_at := now } : ServiceRecord) ∈ st2.records)
            ∧ (∀ r ∈ st.records, isLive now r = false → r ∈ st2.records)) := by
  by_cases hc : st.records.any (fun r => r.service_id = id && isLive now r) = true
  · have hex : ∃ r ∈ st.records, r.service_id = id ∧ isLive now r = true := by
      rcases List.any_eq_true.mp hc with ⟨r, hr, hcond⟩
      rw [Bool.and_eq_true] at hcond
      exact ⟨r, hr, of_decide_eq_true hcond.1, hcond.2⟩
    refine ⟨?_, ?_, ?_⟩
    · constructor
      · intro _
        exact hex
      · intro _
        refine ⟨{ st with records := st.records.map (fun r =>
          if r.service_id = id && isLive now r then
            { r with last_heartbeat_at := now }
          else r) }, ?_⟩
        simp [heartbeat, hc]
    · intro hne
      exact absurd hex hne
    · intro st2 hok
      simp only [heartbeat, if_pos hc, Except.ok.injEq] at hok
      subst hok
      constructor
      · intro r hr hid hlive
        refine List.mem_map.mpr ⟨r, hr, ?_⟩
        rw [if_pos]
        rw [Bool.and_eq_true]
        exact ⟨decide_eq_true hid, hlive⟩
      · intro r hr hdead
        refine List.mem_map.mpr ⟨r, hr, ?_⟩
        rw [if_neg]
        simp [hdead]
  · have hne : ¬ ∃ r ∈ st.records, r.service_id = id ∧ isLive now r = true := by
      intro ⟨r, hr, hid, hlive⟩
      refine hc (List.any_eq_true.mpr ⟨r, hr, ?_⟩)
      rw [Bool.and_eq_true]
      exact ⟨decide_eq_true hid, hlive⟩
    have herr : heartbeat st now id = Except.error RegError.notFound := by
      simp [heartbeat, hc]
    refine ⟨?_, fun _ => herr, ?_⟩
    · constructor
      · intro ⟨st2, hok⟩
        rw [herr] at hok
        exact absurd hok (by simp)
      · intro hx
        exact absurd hx hne
    · intro st2 hok
      rw [herr] at hok
      exact absurd hok (by simp)

/-- C6 witness: at time 100 a heartbeat for the live record id 0 succeeds and
a heartbeat for the expired id 1 (still physically stored) returns NotFound
rather than resurrecting it. -/
theorem heartbeat_iff_live_witness :
    (∃ st2, heartbeat Fixtures.stW 100 0 = Except.ok st2) ∧
      heartbeat Fixtures.stW 100 1 = Except.error RegError.notFound := by
  constructor
  · exact (heartbeat_iff_live Fixtures.stW 100 0).1.mpr
      ⟨Fixtures.recLive, by decide, by decide, by decide⟩
  · exact (heartbeat_iff_live Fixtures.stW 100 1).2.1 (by decide)

/-- C7: with a non-empty name and a syntactically valid url, register
succeeds and returns the fresh id next_id, distinct from the id of every
existing record (names may collide); a second call with identical arguments
succeeds with a different fresh id, leaving two distinct records in the
store; register preserves the id-freshness invariant; and register never
fails with Conflict on any input (errors are always ValidationError). -/
theorem register_fresh_no_conflict (st : RegistryState) (now : Nat)
    (nm url hcu : String) (md : List (String × Value)) (ttl : Nat)
    (hwf : ∀ r ∈ st.records, r.service_id < st.next_id)
    (hnm : ¬ nm = "") (hurl : validUrl url = true) :
    (∃ st1, register st now nm url hcu md ttl = Except.ok (st1, st.next_id)
        ∧ (∀ r ∈ st.records, ¬ r.service_id = st.next_id)
        ∧ (∀ r ∈ st1.records, r.service_id < st1.next_id)
        ∧ ∃ st2, register st1 now nm url hcu md ttl = Except.ok (st2, st1.next_id)
            ∧ ¬ st1.next_id = st.next_id
            ∧ ∃ r1 r2, r1 ∈ st2.records ∧ r2 ∈ st2.records
                ∧ r1.service_id = st.next_id ∧ r2.service_id = st1.next_id
                ∧ ¬ r1 = r2)
      ∧ (∀ (nm2 url2 hcu2 : String) (md2 : List (String × Value)) (ttl2 : Nat)
          (e : RegError),
          register st now nm2 url2 hcu2 md2 ttl2 = Except.error e →
            e = RegError.validationError) := by
  constructor
  · have h1 : register st now nm url hcu md ttl =
        Except.ok
          ({ next_id := st.next_id + 1,
             records := newRecord st.next_id now nm url hcu md ttl :: st.records },
           st.next_id) := by
      simp [register, hnm, hurl]
    refine ⟨_, h1, ?_, ?_, ?_⟩
    · intro r hr
      have := hwf r hr
      omega
    · intro r hr
      rcases List.mem_cons.mp hr with he | hm
      · subst he
        show st.next_id < st.next_id + 1
        omega
      · have := hwf r hm
        show r.service_id < st.next_id + 1
        omega
    · have h2 : register
          ({ next_id := st.next_id + 1,
             records := newRecord st.next_id now nm url hcu md ttl :: st.records } :
            RegistryState) now nm url hcu md ttl =
          Except.ok
            ({ next_id := st.next_id + 1 + 1,
               records := newRecord (st.next_id + 1) now nm url hcu md ttl ::
                 newRecord st.next_id now nm url hcu md ttl :: st.records },
             st.next_id + 1) := by
        simp [register, hnm, hurl]
      refine ⟨_, h2, ?_, ?_⟩
      · show ¬ st.next_id + 1 = st.next_id
        omega
      · refine ⟨newRecord st.next_id now nm url hcu md ttl,
          newRecord (st.next_id + 1) now nm url hcu md ttl, ?_, ?_, rfl, rfl, ?_⟩
        · exact List.mem_cons_of_mem _ (List.mem_cons_self _ _)
        · exact List.mem_cons_self _ _
        · intro hcontra
          have h3 : st.next_id = st.next_id + 1 :=
            congrArg ServiceRecord.service_id hcontra
          omega
  · intro nm2 url2 hcu2 md2 ttl2 e he
    unfold register at he
    split_ifs at he <;> simp_all

/-- C7 witness: registering svc-new twice with identical well-formed
arguments against the concrete store succeeds both times with the distinct
fresh ids 2 and 3. -/
theorem register_fresh_no_conflict_witness :
    ∃ st1, register Fixtures.stW 100 "svc-new" "http://new:1" "http://new:1/h" [] 60 =
        Except.ok (st1, Fixtures.stW.next_id) := by
  rcases (register_fresh_no_conflict Fixtures.stW 100 "svc-new" "http://new:1"
      "http://new:1/h" [] 60 (by decide) (by decide) (by decide)).1 with
    ⟨st1, h1, _⟩
  exact ⟨st1, h1⟩

/-- C8: a successful update(id, fields) leaves, for every live record r with
the id, the updated record in the new store with: registered_at unchanged,
updated_at refreshed to now, last_heartbeat_at and ttl_seconds unchanged (so
the record is live at exactly the same times as before — only heartbeat
extends the window), and every field not named in the update retaining its
prior value. -/
theorem update_frame (st : RegistryState) (now : Nat) (id : Nat)
    (f : UpdateFields) (st2 : RegistryState)
    (h : update st now id f = Except.ok st2) :
    ∀ r ∈ st.records, r.service_id = id → isLive now r = true →
      applyUpdate now f r ∈ st2.records
        ∧ (applyUpdate now f r).registered_at = r.registered_at
        ∧ (applyUpdate now f r).updated_at = now
        ∧ (applyUpdate now f r).last_heartbeat_at = r.last_heartbeat_at
        ∧ (applyUpdate now f r).ttl_seconds = r.ttl_seconds
        ∧ (∀ t, isLive t (applyUpdate now f r) = isLive t r)
        ∧ (f.name = none → (applyUpdate now f r).name = r.name)
        ∧ (f.url = none → (applyUpdate now f r).url = r.url)
        ∧ (f.health_check_url = none →
            (applyUpdate now f r).health_check_url = r.health_check_url)
        ∧ (f.metadata = none → (applyUpdate now f r).metadata = r.metadata) := by
  intro r hr hid hlive
  have hmem : applyUpdate now f r ∈ st2.records := by
    unfold update at h
    split_ifs at h with hc
    · rcases h with h
      cases h
      refine List.mem_map.mpr ⟨r, hr, ?_⟩
      rw [if_pos]
      rw [Bool.and_eq_true]
      exact ⟨decide_eq_true hid, hlive⟩
  refine ⟨hmem, rfl, rfl, rfl, rfl, fun t => rfl, ?_, ?_, ?_, ?_⟩
  · intro hn
    simp [applyUpdate, hn]
  · intro hn
    simp [applyUpdate, hn]
  · intro hn
    simp [applyUpdate, hn]
  · intro hn
    simp [applyUpdate, hn]

/-- C8 witness: renaming the live record through update at time 100 keeps its
registration time 0, heartbeat stamp 50 and TTL 60, refreshes updated_at to
100, and keeps the url that the update did not name. -/
theorem update_frame_witness :
    ∃ st2, update Fixtures.stW 100 0 Fixtures.fRename = Except.ok st2
      ∧ applyUpdate 100 Fixtures.fRename Fixtures.recLive ∈ st2.records
      ∧ (applyUpdate 100 Fixtures.fRename Fixtures.recLive).registered_at = 0
      ∧ (applyUpdate 100 Fixtures.fRename Fixtures.recLive).last_heartbeat_at = 50
      ∧ (applyUpdate 100 Fixtures.fRename Fixtures.recLive).ttl_seconds = 60
      ∧ (applyUpdate 100 Fixtures.fRename Fixtures.recLive).updated_at = 100
      ∧ (applyUpdate 100 Fixtures.fRename Fixtures.recLive).url =
          Fixtures.recLive.url := by
  have h : update Fixtures.stW 100 0 Fixtures.fRename =
      Except.ok
        { next_id := 2,
          records := [applyUpdate 100 Fixtures.fRename Fixtures.recLive,
            Fixtures.recExpired] } := by rfl
  have hall := update_frame Fixtures.stW 100 0 Fixtures.fRename _ h
    Fixtures.recLive (by decide) (by decide) (by decide)
  exact ⟨_, h, hall.1, hall.2.1, hall.2.2.2.1, hall.2.2.2.2.1, hall.2.2.1,
    hall.2.2.2.2.2.2.2.1 (by decide)⟩

/-- C9: preload.js exposes electronAPI.getAgent invoking the get-agent IPC
channel, but main.js registers handlers only for get-agents, create-task,
get-task, order-parts, set-api-url and get-api-url; so get-agent has no
handler and every electronAPI.getAgent call yields a rejected promise, while
every other exposed function reaches a registered handler. -/
theorem getAgent_channel_unhandled :
    Electron.ipcInvoke Electron.mainHandlerChannels
        (Electron.invokedChannel Electron.ExposedApi.getAgent) =
        Electron.InvokeOutcome.rejected
      ∧ Electron.invokedChannel Electron.ExposedApi.getAgent ∉
          Electron.mainHandlerChannels
      ∧ ∀ api : Electron.ExposedApi, ¬ api = Electron.ExposedApi.getAgent →
          Electron.ipcInvoke Electron.mainHandlerChannels
            (Electron.invokedChannel api) = Electron.InvokeOutcome.handled := by
  refine ⟨by decide, by decide, ?_⟩
  intro api h
  cases api
  case getAgent => exact absurd rfl h
  all_goals decide

/-- C9 witness: the getAgents call is handled while the getAgent call is
rejected, instantiating the universally quantified part at getAgents. -/
theorem getAgent_channel_unhandled_witness :
    Electron.ipcInvoke Electron.mainHandlerChannels
        (Electron.invokedChannel Electron.ExposedApi.getAgents) =
        Electron.InvokeOutcome.handled ∧
      Electron.ipcInvoke Electron.mainHandlerChannels
        (Electron.invokedChannel Electron.ExposedApi.getAgent) =
        Electron.InvokeOutcome.rejected :=
  ⟨getAgent_channel_unhandled.2.2 Electron.ExposedApi.getAgents (by decide),
   getAgent_channel_unhandled.1⟩

/-- C10: after set-api-url stores a non-empty url u, get-api-url returns u,
yet the API_URL constant consulted by the get-agents, create-task, get-task
and order-parts handlers is unchanged, so every request handler keeps sending
to the url captured from the store at process startup; storing a new url
never retargets requests within the same process lifetime. -/
theorem setApiUrl_does_not_retarget (st : Electron.MainState) (u : String)
    (h : Electron.RequestHandler) (arg : String) (hu : ¬ u = "") :
    Electron.getApiUrl (Electron.setApiUrl st u) = u
      ∧ (Electron.setApiUrl st u).apiUrlConst = st.apiUrlConst
      ∧ Electron.requestUrl (Electron.setApiUrl st u) h arg =
          Electron.requestUrl st h arg := by
  refine ⟨?_, rfl, ?_⟩
  · simp [Electron.getApiUrl, Electron.setApiUrl, Electron.jsOr, hu]
  · cases h <;> rfl

/-- C10 witness: in a process started with no persisted url (API_URL falls
back to http://localhost:8000), storing http://other:9000 makes get-api-url
return the new url while the get-agents request still targets
http://localhost:8000/agents. -/
theorem setApiUrl_does_not_retarget_witness :
    Electron.getApiUrl
        (Electron.setApiUrl (Electron.startMain none) "http://other:9000") =
        "http://other:9000"
      ∧ Electron.requestUrl
          (Electron.setApiUrl (Electron.startMain none) "http://other:9000")
          Electron.RequestHandler.getAgents "" =
          Electron.requestUrl (Electron.startMain none)
            Electron.RequestHandler.getAgents ""
      ∧ Electron.requestUrl (Electron.startMain none)
          Electron.RequestHandler.getAgents "" = "http://localhost:8000/agents" := by
  have h := setApiUrl_does_not_retarget (Electron.startMain none) "http://other:9000"
    Electron.RequestHandler.getAgents "" (by decide)
  exact ⟨h.1, h.2.2, rfl⟩

/-! ## Concrete validation of the embedding against the spec §8 scenarios -/

/-- Spec §8 scenario 1: agent A with capabilities diagnose_engine and
order_parts, status active; find with required [diagnose_engine] and no
preferences returns exactly [(A, 0)]. -/
theorem scenario_one :
    findAgents [] Fixtures.reqS1 [Fixtures.agentA] = [(Fixtures.agentA, 0)] := by
  decide

/-- Spec §8 scenario 2: with agents A and B each matching exactly one
preferred capability and an empty catalog (all priorities 0), both score 1
and the tie is broken by ascending agent_id, agent-a before agent-b. -/
theorem scenario_two :
    findAgents [] Fixtures.reqS2 [Fixtures.agentB, Fixtures.agentA] =
      [(Fixtures.agentA, 1), (Fixtures.agentB, 1)] := by
  decide
